import Mathlib

/-!
# spotifycli: playlist commands (`cmd/playlist.go`)

A shallow embedding of the track-identifier parser, the identifier classifier, the
playlist resolver and the playlist command handlers, with the properties proved about them.

Go strings are embedded as Lean `String`s (sequences of code points); iterating a Go string
with `range` visits the same code points.  Collaborators living outside the repository
(`net/url`, `strings`, `sort`, the Spotify web client) are embedded from their documented
behaviour, or taken as parameters.
-/

namespace Spotifycli

deriving instance DecidableEq for Except

/-! ## The `strings` helpers used by the source -/

/-- Go `strings.Contains` on code-point lists: `sub` starts at some position of `s`. -/
def containsChars (sub : List Char) : List Char → Bool
  | [] => sub.isPrefixOf []
  | c :: cs => sub.isPrefixOf (c :: cs) || containsChars sub cs

/-- Go `strings.Contains(s, substr)`. -/
def stringsContains (s substr : String) : Bool :=
  containsChars substr.data s.data

/-- Go `strings.Trim(s, cutset)`: drops every leading and trailing code point of `s`
that occurs in `cutset`. -/
def stringsTrim (s cutset : String) : String :=
  ⟨((s.data.dropWhile (fun c => cutset.data.contains c)).reverse.dropWhile
      (fun c => cutset.data.contains c)).reverse⟩

/-- Splitting a code-point list at every occurrence of a separator character. -/
def splitChars (sep : Char) : List Char → List (List Char)
  | [] => [[]]
  | c :: cs =>
    if c = sep then [] :: splitChars sep cs
    else
      match splitChars sep cs with
      | [] => [[c]]
      | seg :: segs => (c :: seg) :: segs

/-- Go `strings.Split(s, sep)` for a one-character separator, the only use in the source
(`sep = "/"`): the substrings between the separators, `[s]` when there is none. -/
def stringsSplit (s : String) (sep : Char) : List String :=
  (splitChars sep s.data).map String.mk

/-! ## Identifier classifier and identifier parser -/

/-- The character test of `isBase62`:
`(c >= '0' && c <= '9') || (c >= 'a' && c <= 'z') || (c >= 'A' && c <= 'Z')`. -/
def base62Char (c : Char) : Bool :=
  (decide ('0' ≤ c) && decide (c ≤ '9')) || (decide ('a' ≤ c) && decide (c ≤ 'z')) ||
    (decide ('A' ≤ c) && decide (c ≤ 'Z'))

/-- The loop of `isBase62`: `for _, c := range s`, returning `false` at the first character
outside the alphabet and `true` when the string is exhausted. -/
def isBase62Loop : List Char → Bool
  | [] => true
  | c :: cs => if !(base62Char c) then false else isBase62Loop cs

/-- Go `isBase62`: false on the empty string, otherwise the result of the loop. -/
def isBase62 (s : String) : Bool :=
  if s.length = 0 then false else isBase62Loop s.data

/-- The part of Go's `url.URL` the source reads. -/
structure URL where
  Path : String
  deriving DecidableEq, Repr

/-- The URL-parsing collaborator (`url.Parse` of Go's `net/url`, outside the repository):
an error message, or the parsed URL. -/
abbrev URLParser := String → Except String URL

/-- Go `parseTrackID`. -/
def parseTrackID (urlParse : URLParser) (input : String) : Except String String :=
  if stringsContains input "spotify.com" then
    match urlParse input with
    | .error err => .error ("invalid URL: " ++ err)
    | .ok parsedURL =>
      match stringsSplit (stringsTrim parsedURL.Path "/") '/' with
      | p0 :: p1 :: _ =>
        if p0 = "track" then .ok p1
        else .error "URL does not contain a valid track path"
      | _ => .error "URL does not contain a valid track path"
  else .ok input

/-- The value of `isIDOrURL` computed in `rmTrackByNameFromPlaylist`:
`parseErr == nil && (strings.Contains(rmTrackName, "spotify.com") || isBase62(rmTrackName))`. -/
def isIDOrURL (urlParse : URLParser) (rmTrackName : String) : Bool :=
  (match parseTrackID urlParse rmTrackName with
    | .ok _ => true
    | .error _ => false) &&
  (stringsContains rmTrackName "spotify.com" || isBase62 rmTrackName)

/-- Cuts a code-point list at the first occurrence of `c`: what stands before it. -/
def beforeChar (c : Char) (s : List Char) : List Char :=
  s.takeWhile (fun d => d ≠ c)

/-- Drops the `scheme:` prefix of a URL when the text up to the first `:` is made of
letters, digits, `+`, `-` and `.`. -/
def dropScheme (s : List Char) : List Char :=
  let scheme := beforeChar ':' s
  if scheme.length < s.length && !scheme.isEmpty &&
      scheme.all (fun c => c.isAlphanum || c = '+' || c = '-' || c = '.') then
    s.drop (scheme.length + 1)
  else s

/-- Drops the `//authority` prefix of a URL, leaving the path. -/
def dropAuthority (s : List Char) : List Char :=
  match s with
  | '/' :: '/' :: rest => rest.dropWhile (fun d => d ≠ '/')
  | _ => s

/-- A reference instance of the URL-parsing collaborator, for evaluating the handlers on
concrete inputs of the shape `scheme://host/path?query#fragment` without percent-escapes:
the fragment and the query are cut off, then the scheme and the authority; what remains is
the path, as `url.Parse` reports it on such inputs.  Control characters are rejected. -/
def sampleURLParse : URLParser := fun rawURL =>
  if rawURL.data.any (fun c => c.toNat < 32 || c.toNat = 127) then
    .error "net/url: invalid control character in URL"
  else
    .ok ⟨⟨dropAuthority (dropScheme (beforeChar '?' (beforeChar '#' rawURL.data)))⟩⟩


/-! ## Go's `sort.Slice`

`sort.Slice` belongs to the Go standard library, outside the repository: the handlers take it
as a parameter.  This section gives a reference instance of it, the pattern-defeating
quicksort of Go 1.19 and later, embedded over a list that stands for the slice:
`data.Less(i, j)` compares the elements currently at `i` and `j`, `data.Swap(i, j)` exchanges
them.  Loops carry a fuel argument that bounds their iterations. -/

section GoSort

variable {α : Type}

/-- Go `data.Less(i, j)`: the comparison of the elements currently at indices `i` and `j`. -/
def lessAt (less : α → α → Bool) (data : List α) (i j : Nat) : Bool :=
  match data[i]?, data[j]? with
  | some x, some y => less x y
  | _, _ => false

/-- Go `data.Swap(i, j)`. -/
def swapAt (data : List α) (i j : Nat) : List α :=
  match data[i]?, data[j]? with
  | some x, some y => (data.set i y).set j x
  | _, _ => data

/-- The inner loop of `insertionSort_func`:
`for j := i; j > a && data.Less(j, j-1); j-- { data.Swap(j, j-1) }`. -/
def insertionInner (less : α → α → Bool) (a : Nat) : Nat → List α → List α
  | 0, data => data
  | j + 1, data =>
    if a < j + 1 && lessAt less data (j + 1) j then
      insertionInner less a j (swapAt data (j + 1) j)
    else data

/-- The outer loop of `insertionSort_func`: `for i := a + 1; i < b; i++`. -/
def insertionOuter (less : α → α → Bool) (a b : Nat) : Nat → Nat → List α → List α
  | 0, _, data => data
  | fuel + 1, i, data =>
    if i < b then insertionOuter less a b fuel (i + 1) (insertionInner less a i data)
    else data

/-- Go `insertionSort_func(data, a, b)`. -/
def insertionSort_func (less : α → α → Bool) (data : List α) (a b : Nat) : List α :=
  insertionOuter less a b (b - a) (a + 1) data

/-- Go `siftDown_func(data, lo, hi, first)`, `root` starting at `lo`. -/
def siftDown_func (less : α → α → Bool) (hi first : Nat) : Nat → List α → Nat → List α
  | 0, data, _ => data
  | fuel + 1, data, root =>
    let child := 2 * root + 1
    if hi ≤ child then data
    else
      let child :=
        if child + 1 < hi && lessAt less data (first + child) (first + child + 1) then child + 1
        else child
      if !(lessAt less data (first + root) (first + child)) then data
      else siftDown_func less hi first fuel (swapAt data (first + root) (first + child)) child

/-- First loop of `heapSort_func`: `for i := (hi - 1) / 2; i >= 0; i--`, the argument being
the number of iterations left. -/
def heapBuild (less : α → α → Bool) (hi first : Nat) : Nat → List α → List α
  | 0, data => data
  | i + 1, data => heapBuild less hi first i (siftDown_func less hi first hi data i)

/-- Second loop of `heapSort_func`: `for i := hi - 1; i >= 0; i--`. -/
def heapPop (less : α → α → Bool) (first : Nat) : Nat → List α → List α
  | 0, data => data
  | i + 1, data =>
    heapPop less first i (siftDown_func less i first i (swapAt data first (first + i)) 0)

/-- Go `heapSort_func(data, a, b)`. -/
def heapSort_func (less : α → α → Bool) (data : List α) (a b : Nat) : List α :=
  let first := a
  let hi := b - a
  heapPop less first hi (heapBuild less hi first ((hi - 1) / 2 + 1) data)

/-- A loop `for i <= j && p(i) { i++ }`; the final `i`. -/
def scanUp (p : Nat → Bool) : Nat → Nat → Nat → Nat
  | 0, i, _ => i
  | fuel + 1, i, j => if i ≤ j && p i then scanUp p fuel (i + 1) j else i

/-- A loop `for i <= j && p(j) { j-- }`; the final `j`. -/
def scanDown (p : Nat → Bool) : Nat → Nat → Nat → Nat
  | 0, _, j => j
  | fuel + 1, i, j => if i ≤ j && p j then scanDown p fuel i (j - 1) else j

/-- The closing `for { ... }` loop of `partition_func`; the data and the final `j`. -/
def partitionLoop (less : α → α → Bool) (a : Nat) : Nat → List α → Nat → Nat → List α × Nat
  | 0, data, _, j => (data, j)
  | fuel + 1, data, i, j =>
    let i := scanUp (fun k => lessAt less data k a) (j + 1) i j
    let j := scanDown (fun k => !(lessAt less data k a)) (j + 1) i j
    if j < i then (data, j)
    else partitionLoop less a fuel (swapAt data i j) (i + 1) (j - 1)

/-- Go `partition_func(data, a, b, pivot)`: the data, `newpivot` and `alreadyPartitioned`. -/
def partition_func (less : α → α → Bool) (data : List α) (a b pivot : Nat) :
    List α × Nat × Bool :=
  let data := swapAt data a pivot
  let i := scanUp (fun k => lessAt less data k a) (b - a) (a + 1) (b - 1)
  let j := scanDown (fun k => !(lessAt less data k a)) (b - a) i (b - 1)
  if j < i then (swapAt data j a, j, true)
  else
    let r := partitionLoop less a (b - a) (swapAt data i j) (i + 1) (j - 1)
    (swapAt r.1 r.2 a, r.2, false)

/-- The loop of `partitionEqual_func`; the data and the final `i`. -/
def partitionEqualLoop (less : α → α → Bool) (a : Nat) :
    Nat → List α → Nat → Nat → List α × Nat
  | 0, data, i, _ => (data, i)
  | fuel + 1, data, i, j =>
    let i := scanUp (fun k => !(lessAt less data a k)) (j + 1) i j
    let j := scanDown (fun k => lessAt less data a k) (j + 1) i j
    if j < i then (data, i)
    else partitionEqualLoop less a fuel (swapAt data i j) (i + 1) (j - 1)

/-- Go `partitionEqual_func(data, a, b, pivot)`: the data and `newpivot`. -/
def partitionEqual_func (less : α → α → Bool) (data : List α) (a b pivot : Nat) :
    List α × Nat :=
  partitionEqualLoop less a (b - a + 1) (swapAt data a pivot) (a + 1) (b - 1)

/-- The left shift of `partialInsertionSort_func`: `for j := i - 1; j >= 1; j--`. -/
def shiftLeft (less : α → α → Bool) : Nat → List α → List α
  | 0, data => data
  | j + 1, data =>
    if !(lessAt less data (j + 1) j) then data
    else shiftLeft less j (swapAt data (j + 1) j)

/-- The right shift of `partialInsertionSort_func`: `for j := i + 1; j < b; j++`. -/
def shiftRight (less : α → α → Bool) (b : Nat) : Nat → Nat → List α → List α
  | 0, _, data => data
  | fuel + 1, j, data =>
    if j < b then
      if !(lessAt less data j (j - 1)) then data
      else shiftRight less b fuel (j + 1) (swapAt data j (j - 1))
    else data

/-- The `for j := 0; j < maxSteps; j++` loop of `partialInsertionSort_func`, the first
argument being the number of steps left; the data and the returned flag. -/
def partialInsertionLoop (less : α → α → Bool) (a b : Nat) :
    Nat → Nat → List α → List α × Bool
  | 0, _, data => (data, false)
  | steps + 1, i, data =>
    let i := scanUp (fun k => !(lessAt less data k (k - 1))) b i (b - 1)
    if i = b then (data, true)
    else if b - a < 50 then (data, false)
    else
      let data := swapAt data i (i - 1)
      let data := if 2 ≤ i - a then shiftLeft less (i - 1) data else data
      let data := if 2 ≤ b - i then shiftRight less b b (i + 1) data else data
      partialInsertionLoop less a b steps i data

/-- Go `partialInsertionSort_func(data, a, b)` (`maxSteps = 5`, `shortestShifting = 50`). -/
def partialInsertionSort_func (less : α → α → Bool) (data : List α) (a b : Nat) :
    List α × Bool :=
  partialInsertionLoop less a b 5 (a + 1) data

/-- Go `xorshift.Next` on a 64-bit state. -/
def xorshiftNext (r : Nat) : Nat :=
  let r := r ^^^ ((r <<< 13) % 2 ^ 64)
  let r := r ^^^ (r >>> 7)
  r ^^^ ((r <<< 17) % 2 ^ 64)

/-- Go `bits.Len`: the number of bits needed to write `n`. -/
def bitsLen : Nat → Nat → Nat
  | 0, _ => 0
  | fuel + 1, n => if n = 0 then 0 else bitsLen fuel (n / 2) + 1

/-- Go `nextPowerOfTwo(length)`. -/
def nextPowerOfTwo (length : Nat) : Nat :=
  2 ^ bitsLen 64 length

/-- The three swaps of `breakPatterns_func`, at the positions `idx`, `idx + 1`, `idx + 2`. -/
def breakPatternsLoop (a length modulus idx : Nat) : Nat → Nat → Nat → List α → List α
  | 0, _, _, data => data
  | n + 1, i, random, data =>
    let random := xorshiftNext random
    let other := random &&& (modulus - 1)
    let other := if length ≤ other then other - length else other
    breakPatternsLoop a length modulus idx n (i + 1) random (swapAt data (idx + i) (a + other))

/-- Go `breakPatterns_func(data, a, b)`: three elements around the middle, from position
`a + (length / 4) * 2 - 1` on, are exchanged with pseudo-randomly chosen ones. -/
def breakPatterns_func (data : List α) (a b : Nat) : List α :=
  let length := b - a
  if 8 ≤ length then
    breakPatternsLoop a length (nextPowerOfTwo length) (a + (length / 4) * 2 - 1) 3 0 length data
  else data

/-- Go `sortedHint`. -/
inductive sortedHint
  | unknownHint
  | increasingHint
  | decreasingHint
  deriving DecidableEq, Repr

/-- Go `order2_func(data, a, b, swaps)`: the ordered pair and the updated swap count. -/
def order2_func (less : α → α → Bool) (data : List α) (a b swaps : Nat) : Nat × Nat × Nat :=
  if lessAt less data b a then (b, a, swaps + 1) else (a, b, swaps)

/-- Go `median_func(data, a, b, c, swaps)`: the median index and the updated swap count. -/
def median_func (less : α → α → Bool) (data : List α) (a b c swaps : Nat) : Nat × Nat :=
  let r1 := order2_func less data a b swaps
  let r2 := order2_func less data r1.2.1 c r1.2.2
  let r3 := order2_func less data r1.1 r2.1 r2.2.2
  (r3.2.1, r3.2.2)

/-- Go `medianAdjacent_func(data, a, swaps)`. -/
def medianAdjacent_func (less : α → α → Bool) (data : List α) (a swaps : Nat) : Nat × Nat :=
  median_func less data (a - 1) a (a + 1) swaps

/-- Go `choosePivot_func(data, a, b)` (`shortestNinther = 50`, `maxSwaps = 12`). -/
def choosePivot_func (less : α → α → Bool) (data : List α) (a b : Nat) : Nat × sortedHint :=
  let l := b - a
  let i := a + l / 4 * 1
  let j := a + l / 4 * 2
  let k := a + l / 4 * 3
  let r :=
    if 8 ≤ l then
      if 50 ≤ l then
        let ri := medianAdjacent_func less data i 0
        let rj := medianAdjacent_func less data j ri.2
        let rk := medianAdjacent_func less data k rj.2
        median_func less data ri.1 rj.1 rk.1 rk.2
      else median_func less data i j k 0
    else (j, 0)
  if r.2 = 0 then (r.1, .increasingHint)
  else if r.2 = 12 then (r.1, .decreasingHint)
  else (r.1, .unknownHint)

/-- The loop of `reverseRange_func`: `for i < j { data.Swap(i, j); i++; j-- }`. -/
def reverseRangeLoop : Nat → List α → Nat → Nat → List α
  | 0, data, _, _ => data
  | fuel + 1, data, i, j =>
    if i < j then reverseRangeLoop fuel (swapAt data i j) (i + 1) (j - 1) else data

/-- Go `reverseRange_func(data, a, b)`. -/
def reverseRange_func (data : List α) (a b : Nat) : List α :=
  reverseRangeLoop (b - a) data a (b - 1)

/-- Go `pdqsort_func(data, a, b, limit)`; the two flags are the loop's `wasBalanced` and
`wasPartitioned`, both `true` on entry. -/
def pdqsort_func (less : α → α → Bool) :
    Nat → List α → Nat → Nat → Nat → Bool → Bool → List α
  | 0, data, _, _, _, _, _ => data
  | fuel + 1, data, a, b, limit, wasBalanced, wasPartitioned =>
    let length := b - a
    if length ≤ 12 then insertionSort_func less data a b
    else if limit = 0 then heapSort_func less data a b
    else
      let data := if !wasBalanced then breakPatterns_func data a b else data
      let limit := if !wasBalanced then limit - 1 else limit
      let ph := choosePivot_func less data a b
      let data := if ph.2 = .decreasingHint then reverseRange_func data a b else data
      let pivot := if ph.2 = .decreasingHint then (b - 1) - (ph.1 - a) else ph.1
      let hint := if ph.2 = .decreasingHint then sortedHint.increasingHint else ph.2
      let pis :=
        if wasBalanced && wasPartitioned && hint = .increasingHint then
          partialInsertionSort_func less data a b
        else (data, false)
      if pis.2 then pis.1
      else
        let data := pis.1
        if 0 < a && !(lessAt less data (a - 1) pivot) then
          let pe := partitionEqual_func less data a b pivot
          pdqsort_func less fuel pe.1 pe.2 b limit wasBalanced wasPartitioned
        else
          let pr := partition_func less data a b pivot
          let mid := pr.2.1
          let leftLen := mid - a
          let rightLen := b - mid
          let balanceThreshold := length / 8
          if leftLen < rightLen then
            pdqsort_func less fuel (pdqsort_func less fuel pr.1 a mid limit true true)
              (mid + 1) b limit (decide (balanceThreshold ≤ leftLen)) pr.2.2
          else
            pdqsort_func less fuel (pdqsort_func less fuel pr.1 (mid + 1) b limit true true)
              a mid limit (decide (balanceThreshold ≤ rightLen)) pr.2.2

/-- The reference instance of `sort.Slice(x, less)`:
`pdqsort_func(data, 0, length, bits.Len(length))`. -/
def referenceSortSlice (less : α → α → Bool) (x : List α) : List α :=
  pdqsort_func less (x.length + 1) x 0 x.length (bitsLen 64 x.length) true true

/-- The documented contract of `sort.Slice` at one call: the slice after the call is a
rearrangement of the slice before it, ordered by `less`, that is, no element is less than one
standing before it.  Nothing is said of two elements neither of which is less than the other:
the sort is not stable. -/
def SortedBy (less : α → α → Bool) (before after : List α) : Prop :=
  after.Perm before ∧ after.Pairwise (fun u v => less v u = false)

end GoSort

/-! ## Data model

The records of the Spotify client library (`github.com/zmb3/spotify`, outside the
repository), with the fields the specification and the handlers name.  Slices are lists; a
`nil` slice and an empty one are the same list. -/

/-- Modelled from the spec: the library's `spotify.User`, of which the source reads the
display name and the identifier. -/
structure User where
  DisplayName : String
  ID : String
  deriving DecidableEq, Repr

/-- Modelled from the spec: the library's `spotify.PlaylistTracks`, the track count of a
playlist. -/
structure PlaylistTracks where
  Total : Nat
  deriving DecidableEq, Repr

/-- Modelled from the spec: the library's `spotify.SimplePlaylist` (identifier, display
name, owner, visibility flag, collaborative flag, track count). -/
structure SimplePlaylist where
  ID : String
  Name : String
  Owner : User
  IsPublic : Bool
  Collaborative : Bool
  Tracks : PlaylistTracks
  deriving DecidableEq, Repr

/-- Modelled from the spec: the library's `spotify.SimpleArtist`. -/
structure SimpleArtist where
  Name : String
  deriving DecidableEq, Repr

/-- Modelled from the spec: the library's `spotify.SimpleAlbum`. -/
structure SimpleAlbum where
  Name : String
  deriving DecidableEq, Repr

/-- Modelled from the spec: the library's `spotify.SimpleTrack` (identifier, display name,
artists, duration in milliseconds, explicit flag, preview URL). -/
structure SimpleTrack where
  ID : String
  Name : String
  Artists : List SimpleArtist
  Duration : Int
  Explicit : Bool
  PreviewURL : String
  deriving DecidableEq, Repr

/-- Modelled from the spec: the library's `spotify.FullTrack`, a `SimpleTrack` with its album
and its popularity. -/
structure FullTrack where
  SimpleTrack : SimpleTrack
  Album : SimpleAlbum
  Popularity : Int
  deriving DecidableEq, Repr

/-- Modelled from the spec: the library's `spotify.PlaylistTrack`, an entry of a playlist's
track listing. -/
structure PlaylistTrack where
  Track : FullTrack
  deriving DecidableEq, Repr

/-- Modelled from the spec: the library's `spotify.FullTrackPage`, a page of search
results. -/
structure FullTrackPage where
  Tracks : List FullTrack
  deriving DecidableEq, Repr

/-- Modelled from the spec: the library's `spotify.SearchResult`; `Tracks` is a pointer, `none`
when it is `nil`. -/
structure SearchResult where
  Tracks : Option FullTrackPage
  deriving DecidableEq, Repr

/-- Go `spotify.SimplePlaylist{}`, the zero value. -/
def SimplePlaylist.zero : SimplePlaylist :=
  ⟨"", "", ⟨"", ""⟩, false, false, ⟨0⟩⟩

/-- Go `spotify.SimpleTrack{}`, the zero value. -/
def SimpleTrack.zero : SimpleTrack :=
  ⟨"", "", [], 0, false, ""⟩

/-- The sorting collaborator of `addTrackByNameToPlaylist` (`sort.Slice` of Go's `sort`,
outside the repository): from the `less` function and the slice, the slice after the call. -/
abbrev SliceSorter := (FullTrack → FullTrack → Bool) → List FullTrack → List FullTrack

/-! ## The remote service and the runs of a handler -/

/-- The remote service collaborator (the package variable `client`): what each of its
operations answers, an error message or a result.  The mutating calls answer a snapshot
identifier. -/
structure Client where
  CurrentUser : Except String User
  CurrentUsersPlaylists : Except String (List SimplePlaylist)
  GetPlaylistTracks : String → Except String (List PlaylistTrack)
  Search : String → Except String SearchResult
  AddTracksToPlaylist : String → List String → Except String String
  RemoveTracksFromPlaylist : String → List String → Except String String

/-- A call issued to the remote service, with its arguments. -/
inductive Call
  | CurrentUser
  | CurrentUsersPlaylists
  | GetPlaylistTracks (playlistID : String)
  | Search (query : String)
  | AddTracksToPlaylist (playlistID : String) (trackIDs : List String)
  | RemoveTracksFromPlaylist (playlistID : String) (trackIDs : List String)
  deriving DecidableEq, Repr

/-- How a handler ends: it returns (`none` for a `nil` error), or the Go runtime panics. -/
inductive Outcome
  | returned (err : Option String)
  | panicked (msg : String)
  deriving DecidableEq, Repr

/-- A run of a handler: the remote calls it issued, in order, what it printed, and how it
ended. -/
structure Run where
  calls : List Call
  output : List String
  outcome : Outcome
  deriving DecidableEq, Repr

/-- Whether a call is a "remove tracks" call. -/
def Call.isRemoveTracks : Call → Bool
  | .RemoveTracksFromPlaylist _ _ => true
  | _ => false

/-- Whether a call is an "add tracks" call. -/
def Call.isAddTracks : Call → Bool
  | .AddTracksToPlaylist _ _ => true
  | _ => false

/-! ## Playlist resolver and command handlers -/

/-- The loop of `getPlaylistByName`: `matchPlaylist`, zero-valued at the start, is set at the
first playlist whose `Name` equals `playlistName`, and the loop breaks there. -/
def matchPlaylistLoop (playlistName : String) : List SimplePlaylist → SimplePlaylist
  | [] => SimplePlaylist.zero
  | p :: ps => if playlistName = p.Name then p else matchPlaylistLoop playlistName ps

/-- Go `getPlaylistByName`; it issues one `CurrentUsersPlaylists` call. -/
def getPlaylistByName (client : Client) (playlistName : String) : Except String SimplePlaylist :=
  match client.CurrentUsersPlaylists with
  | .error err => .error err
  | .ok playlists =>
    let matchPlaylist := matchPlaylistLoop playlistName playlists
    if matchPlaylist = SimplePlaylist.zero then
      .error ("playlist not found: " ++ playlistName)
    else .ok matchPlaylist

/-- Go `clearPlaylist`, `clearPlaylistName` being the flag variable it reads. -/
def clearPlaylist (client : Client) (clearPlaylistName : String) : Run :=
  match client.CurrentUser with
  | .error err => ⟨[.CurrentUser], [], .returned (some err)⟩
  | .ok user =>
    let out1 := ["User:  " ++ user.DisplayName ++ "\n"]
    match getPlaylistByName client clearPlaylistName with
    | .error err => ⟨[.CurrentUser, .CurrentUsersPlaylists], out1, .returned (some err)⟩
    | .ok pl =>
      let out2 := out1 ++ ["Playlist:  " ++ pl.Name ++ "\n"]
      let calls3 := [Call.CurrentUser, .CurrentUsersPlaylists, .GetPlaylistTracks pl.ID]
      match client.GetPlaylistTracks pl.ID with
      | .error err => ⟨calls3, out2, .returned (some err)⟩
      | .ok tracks =>
        if tracks.length = 0 then
          ⟨calls3, out2 ++ ["Playlist is already empty.\n"], .returned none⟩
        else
          let trackIDs := tracks.foldl (fun ids t => ids ++ [t.Track.SimpleTrack.ID]) []
          let calls4 := calls3 ++ [.RemoveTracksFromPlaylist pl.ID trackIDs]
          match client.RemoveTracksFromPlaylist pl.ID trackIDs with
          | .error err => ⟨calls4, out2, .returned (some err)⟩
          | .ok _ =>
            ⟨calls4,
              out2 ++ ["Removed " ++ toString trackIDs.length ++ " track(s) from playlist \"" ++
                pl.Name ++ "\".\n"],
              .returned none⟩

/-- Go `addTrackByNameToPlaylist`, `addTrackName` and `addTrackByNameToPlaylistName` being the
flag variables it reads and `sortSlice` the library's `sort.Slice`.  Indexing the sorted
slice at `0` panics when it is empty. -/
def addTrackByNameToPlaylist (sortSlice : SliceSorter) (client : Client)
    (addTrackName addTrackByNameToPlaylistName : String) : Run :=
  match client.CurrentUser with
  | .error err => ⟨[.CurrentUser], [], .returned (some err)⟩
  | .ok user =>
    let out1 := ["User:  " ++ user.DisplayName ++ "\n"]
    match getPlaylistByName client addTrackByNameToPlaylistName with
    | .error err => ⟨[.CurrentUser, .CurrentUsersPlaylists], out1, .returned (some err)⟩
    | .ok pl =>
      let out2 := out1 ++ ["Playlist:  " ++ pl.Name ++ "\n"]
      let calls3 := [Call.CurrentUser, .CurrentUsersPlaylists, .Search addTrackName]
      match client.Search addTrackName with
      | .error err => ⟨calls3, out2, .returned (some err)⟩
      | .ok results =>
        match results.Tracks with
        | some page =>
          let tracks := sortSlice (fun x y => decide (x.Popularity > y.Popularity)) page.Tracks
          match tracks with
          | [] => ⟨calls3, out2, .panicked "runtime error: index out of range [0] with length 0"⟩
          | t0 :: _ =>
            let out3 := out2 ++ ["Track:  " ++ t0.SimpleTrack.Name ++ "\n"]
            let calls4 := calls3 ++ [.AddTracksToPlaylist pl.ID [t0.SimpleTrack.ID]]
            match client.AddTracksToPlaylist pl.ID [t0.SimpleTrack.ID] with
            | .error err => ⟨calls4, out3, .returned (some err)⟩
            | .ok _ =>
              ⟨calls4,
                out3 ++ ["Added track \"" ++ t0.SimpleTrack.Name ++ "\" to playlist \"" ++
                  pl.Name ++ "\".\n"],
                .returned none⟩
        | none => ⟨calls3, out2 ++ ["Track " ++ addTrackName ++ " not found.\n"], .returned none⟩

/-- The search loop of `rmTrackByNameFromPlaylist`: `matchedTrack`, zero-valued at the start,
is set at the first entry whose track identifier equals `parsedTrackID` (when `isIDOrURL`)
or whose track name equals `rmTrackName` (otherwise), and the loop breaks there. -/
def matchTrackLoop (isIDOrURL : Bool) (parsedTrackID rmTrackName : String) :
    List PlaylistTrack → SimpleTrack
  | [] => SimpleTrack.zero
  | t :: ts =>
    if isIDOrURL then
      if t.Track.SimpleTrack.ID = parsedTrackID then t.Track.SimpleTrack
      else matchTrackLoop isIDOrURL parsedTrackID rmTrackName ts
    else
      if rmTrackName = t.Track.SimpleTrack.Name then t.Track.SimpleTrack
      else matchTrackLoop isIDOrURL parsedTrackID rmTrackName ts

/-- The track-removal matcher, lines 533-555 of `rmTrackByNameFromPlaylist`: from the track
listing and the query, the matched track or the "not found in playlist" error.  On a parse
error `parsedTrackID` is the empty string `parseTrackID` returns with it. -/
def rmTrackMatcher (urlParse : URLParser) (ptracks : List PlaylistTrack)
    (rmTrackName rmTrackFromPlaylistName : String) : Except String SimpleTrack :=
  let parsedTrackID :=
    match parseTrackID urlParse rmTrackName with
    | .ok id => id
    | .error _ => ""
  let matchedTrack := matchTrackLoop (isIDOrURL urlParse rmTrackName) parsedTrackID rmTrackName ptracks
  if matchedTrack = SimpleTrack.zero then
    .error ("track " ++ rmTrackName ++ " not found in playlist " ++ rmTrackFromPlaylistName)
  else .ok matchedTrack

/-- Go `rmTrackByNameFromPlaylist`, `rmTrackName` and `rmTrackFromPlaylistName` being the flag
variables it reads. -/
def rmTrackByNameFromPlaylist (urlParse : URLParser) (client : Client)
    (rmTrackName rmTrackFromPlaylistName : String) : Run :=
  match client.CurrentUser with
  | .error err => ⟨[.CurrentUser], [], .returned (some err)⟩
  | .ok user =>
    let out1 := ["User:  " ++ user.DisplayName ++ "\n"]
    match getPlaylistByName client rmTrackFromPlaylistName with
    | .error err => ⟨[.CurrentUser, .CurrentUsersPlaylists], out1, .returned (some err)⟩
    | .ok pl =>
      let calls3 := [Call.CurrentUser, .CurrentUsersPlaylists, .GetPlaylistTracks pl.ID]
      match client.GetPlaylistTracks pl.ID with
      | .error err => ⟨calls3, out1, .returned (some err)⟩
      | .ok ptracks =>
        match rmTrackMatcher urlParse ptracks rmTrackName rmTrackFromPlaylistName with
        | .error err => ⟨calls3, out1, .returned (some err)⟩
        | .ok matchedTrack =>
          let out2 := out1 ++ ["Track:  " ++ matchedTrack.Name ++ "\n"]
          let calls4 := calls3 ++ [.RemoveTracksFromPlaylist pl.ID [matchedTrack.ID]]
          match client.RemoveTracksFromPlaylist pl.ID [matchedTrack.ID] with
          | .error err => ⟨calls4, out2, .returned (some err)⟩
          | .ok _ =>
            ⟨calls4,
              out2 ++ ["Removed track \"" ++ matchedTrack.Name ++ "\" from playlist \"" ++
                rmTrackFromPlaylistName ++ "\".\n"],
              .returned none⟩

/-! ## Sample data for concrete evaluation -/

/-- A track with the given identifier, name and popularity. -/
def mkTrack (id name : String) (popularity : Int) : FullTrack :=
  ⟨⟨id, name, [⟨"Queen"⟩], 354000, false, ""⟩, ⟨"A Night at the Opera"⟩, popularity⟩

/-- A playlist with the given identifier and name. -/
def mkPlaylist (id name : String) : SimplePlaylist :=
  ⟨id, name, ⟨"Ann", "ann"⟩, true, false, ⟨0⟩⟩

/-- A remote service whose user owns the given playlists, where every playlist has the given
track listing, every search answers the given result, and every mutation succeeds. -/
def mkClient (playlists : List SimplePlaylist) (listing : List PlaylistTrack)
    (search : SearchResult) : Client where
  CurrentUser := .ok ⟨"Ann", "ann"⟩
  CurrentUsersPlaylists := .ok playlists
  GetPlaylistTracks := fun _ => .ok listing
  Search := fun _ => .ok search
  AddTracksToPlaylist := fun _ _ => .ok "snapshot"
  RemoveTracksFromPlaylist := fun _ _ => .ok "snapshot"

/-- The first track, in list order, whose popularity is at least that of every track of the
list: the first of those with the maximum popularity. -/
def firstMostPopular (tracks : List FullTrack) : Option FullTrack :=
  tracks.find? (fun t => tracks.all (fun u => decide (u.Popularity ≤ t.Popularity)))

/-- Thirteen search results: popularity 9 at positions 3, 6 and 9, popularity 1 elsewhere. -/
def thirteenResults : List FullTrack :=
  [mkTrack "t0" "n0" 1, mkTrack "t1" "n1" 1, mkTrack "t2" "n2" 1, mkTrack "t3" "n3" 9,
   mkTrack "t4" "n4" 1, mkTrack "t5" "n5" 1, mkTrack "t6" "n6" 9, mkTrack "t7" "n7" 1,
   mkTrack "t8" "n8" 1, mkTrack "t9" "n9" 9, mkTrack "t10" "n10" 1, mkTrack "t11" "n11" 1,
   mkTrack "t12" "n12" 1]

/-! # Theorems -/

/-! ## Lemmas on the string helpers -/

theorem isBase62Loop_iff (l : List Char) :
    isBase62Loop l = true ↔ ∀ c ∈ l, base62Char c = true := by
  induction l with
  | nil => simp [isBase62Loop]
  | cons c cs ih =>
    simp only [isBase62Loop, List.mem_cons, forall_eq_or_imp]
    cases h : base62Char c <;> simp [ih]

theorem base62Char_iff (c : Char) :
    base62Char c = true ↔
      ('0' ≤ c ∧ c ≤ '9') ∨ ('a' ≤ c ∧ c ≤ 'z') ∨ ('A' ≤ c ∧ c ≤ 'Z') := by
  simp [base62Char, or_assoc]

theorem splitChars_of_not_mem (sep : Char) (l : List Char) (h : sep ∉ l) :
    splitChars sep l = [l] := by
  induction l with
  | nil => rfl
  | cons c cs ih =>
    simp only [List.mem_cons, not_or] at h
    have hc : c ≠ sep := fun e => h.1 e.symm
    simp [splitChars, hc, ih h.2]

theorem containsChars_mem (sub s : List Char) (h : containsChars sub s = true) :
    ∀ c ∈ sub, c ∈ s := by
  induction s with
  | nil =>
    cases sub with
    | nil => simp
    | cons a as => simp [containsChars] at h
  | cons d ds ih =>
    simp only [containsChars, Bool.or_eq_true] at h
    intro c hc
    rcases h with h | h
    · exact (List.IsPrefix.subset ( List.isPrefixOf_iff_prefix.mp h)) hc
    · exact List.mem_cons_of_mem _ (ih h c hc)

theorem isBase62_not_contains (s : String) (h : isBase62 s = true) :
    stringsContains s "spotify.com" = false := by
  by_contra hc
  rw [Bool.not_eq_false] at hc
  have hm := containsChars_mem _ _ hc '.' (by decide)
  unfold isBase62 at h
  split at h
  · simp at h
  · have := (isBase62Loop_iff _).mp h '.' hm
    revert this
    decide

theorem stringsTrim_track (X : String) (hne : X ≠ "") (hns : '/' ∉ X.data) :
    stringsTrim ("/track/" ++ X) "/" = "track/" ++ X := by
  have hX : X.data ≠ [] := by
    intro h
    apply hne
    cases X
    simp_all
  obtain ⟨y, ys, hy⟩ : ∃ y ys, X.data.reverse = y :: ys := by
    cases hr : X.data.reverse with
    | nil => simp at hr; exact absurd hr hX
    | cons y ys => exact ⟨y, ys, rfl⟩
  have hymem : y ∈ X.data := by
    have : y ∈ X.data.reverse := by rw [hy]; simp
    simpa using this
  have hyne : y ≠ '/' := fun e => hns (e ▸ hymem)
  have hdata : ("/track/" ++ X).data = '/' :: ("track/".data ++ X.data) := by
    simp [String.data_append]
  have h2 : ("track/" ++ X).data = "track/".data ++ X.data := by
    simp [String.data_append]
  unfold stringsTrim
  apply String.ext
  rw [h2, hdata]
  show (List.dropWhile _ (List.dropWhile _ ('/' :: ('t' :: 'r' :: 'a' :: 'c' :: 'k' :: '/' :: X.data))).reverse).reverse = _
  have e1 : List.dropWhile (fun c => "/".data.contains c)
      ('/' :: ('t' :: 'r' :: 'a' :: 'c' :: 'k' :: '/' :: X.data)) =
      't' :: 'r' :: 'a' :: 'c' :: 'k' :: '/' :: X.data := by
    rw [List.dropWhile_cons_of_pos (by decide), List.dropWhile_cons_of_neg (by decide)]
  rw [e1]
  have e2 : ('t' :: 'r' :: 'a' :: 'c' :: 'k' :: '/' :: X.data).reverse =
      y :: (ys ++ ['/', 'k', 'c', 'a', 'r', 't']) := by
    simp [hy]
  rw [e2, List.dropWhile_cons_of_neg, ← e2, List.reverse_reverse]
  · rfl
  · have : ("/".data.contains y) = false := by
      show (['/'].contains y) = false
      simp [hyne]
    simp [this, hyne]

theorem stringsSplit_track (X : String) (hns : '/' ∉ X.data) :
    stringsSplit ("track/" ++ X) '/' = ["track", X] := by
  have h2 : ("track/" ++ X).data = 't' :: 'r' :: 'a' :: 'c' :: 'k' :: '/' :: X.data := by
    simp [String.data_append]
  unfold stringsSplit
  rw [h2]
  simp [splitChars, splitChars_of_not_mem _ _ hns]

/-! ## Identifier classifier and parser: the claims -/

/-- C9: `isBase62 s` is true exactly when `s` is non-empty and each of its characters lies in
`0-9`, `a-z` or `A-Z`; so it is false on the empty string and on every string that contains a
space. -/
theorem isBase62_iff (s : String) :
    (isBase62 s = true ↔
      s ≠ "" ∧ ∀ c ∈ s.data,
        ('0' ≤ c ∧ c ≤ '9') ∨ ('a' ≤ c ∧ c ≤ 'z') ∨ ('A' ≤ c ∧ c ≤ 'Z')) ∧
    isBase62 "" = false ∧
    (' ' ∈ s.data → isBase62 s = false) := by
  have key : isBase62 s = true ↔
      s ≠ "" ∧ ∀ c ∈ s.data,
        ('0' ≤ c ∧ c ≤ '9') ∨ ('a' ≤ c ∧ c ≤ 'z') ∨ ('A' ≤ c ∧ c ≤ 'Z') := by
    have hlen : s.length = 0 ↔ s = "" := by
      cases s with
      | mk d =>
        constructor
        · intro h
          have : d = [] := List.length_eq_zero.mp h
          subst this
          rfl
        · intro h
          rw [h]
          rfl
    unfold isBase62
    by_cases h : s.length = 0
    · simp [h, hlen.mp h]
    · have hne : s ≠ "" := fun e => h (hlen.mpr e)
      simp only [h, if_false, isBase62Loop_iff, base62Char_iff, hne, ne_eq, not_false_eq_true,
        true_and]
  refine ⟨key, by decide, ?_⟩
  intro hsp
  by_contra hc
  rw [Bool.not_eq_false] at hc
  have := (key.mp hc).2 ' ' hsp
  revert this
  decide

/-- C2: on every input that does not contain `spotify.com`, `parseTrackID` returns the input
itself and no error, whatever the URL parser does. -/
theorem parseTrackID_identity (urlParse : URLParser) (input : String)
    (h : stringsContains input "spotify.com" = false) :
    parseTrackID urlParse input = .ok input := by
  simp [parseTrackID, h]

/-- C1: when the input contains `spotify.com`, the URL parse succeeds and the parsed path is
`/track/` followed by a non-empty `X` without `/`, `parseTrackID` returns `X` and no error;
in particular the documented share link yields `2b7VhCSKWZAFDrDPKTJ1z2` once the parser
reports its path `/track/2b7VhCSKWZAFDrDPKTJ1z2`. -/
theorem parseTrackID_track_url (urlParse : URLParser) (input X : String) (u : URL)
    (hc : stringsContains input "spotify.com" = true)
    (hp : urlParse input = .ok u)
    (hpath : u.Path = "/track/" ++ X)
    (hne : X ≠ "")
    (hns : '/' ∉ X.data) :
    parseTrackID urlParse input = .ok X ∧
    (urlParse "https://open.spotify.com/track/2b7VhCSKWZAFDrDPKTJ1z2?si=xyz" =
        .ok ⟨"/track/2b7VhCSKWZAFDrDPKTJ1z2"⟩ →
      parseTrackID urlParse "https://open.spotify.com/track/2b7VhCSKWZAFDrDPKTJ1z2?si=xyz" =
        .ok "2b7VhCSKWZAFDrDPKTJ1z2") := by
  have gen : ∀ (inp Y : String) (v : URL), stringsContains inp "spotify.com" = true →
      urlParse inp = .ok v → v.Path = "/track/" ++ Y → Y ≠ "" → '/' ∉ Y.data →
      parseTrackID urlParse inp = .ok Y := by
    intro inp Y v h1 h2 h3 h4 h5
    simp only [parseTrackID, h1, if_true, h2, h3, stringsTrim_track Y h4 h5,
      stringsSplit_track Y h5]
  refine ⟨gen input X u hc hp hpath hne hns, ?_⟩
  intro hex
  exact gen _ "2b7VhCSKWZAFDrDPKTJ1z2" _ (by decide) hex rfl (by decide) (by decide)

/-- Witness for C1: the documented share link, with the reference parser. -/
theorem parseTrackID_track_url_witness :
    parseTrackID sampleURLParse "https://open.spotify.com/track/2b7VhCSKWZAFDrDPKTJ1z2?si=xyz" =
      .ok "2b7VhCSKWZAFDrDPKTJ1z2" :=
  (parseTrackID_track_url sampleURLParse
    "https://open.spotify.com/track/2b7VhCSKWZAFDrDPKTJ1z2?si=xyz" "2b7VhCSKWZAFDrDPKTJ1z2"
    ⟨"/track/2b7VhCSKWZAFDrDPKTJ1z2"⟩ (by decide) (by decide) rfl (by decide) (by decide)).1

/-- Witness for C2: a bare identifier and the empty string. -/
theorem parseTrackID_identity_witness :
    parseTrackID sampleURLParse "2b7VhCSKWZAFDrDPKTJ1z2" = .ok "2b7VhCSKWZAFDrDPKTJ1z2" ∧
    parseTrackID sampleURLParse "" = .ok "" :=
  ⟨parseTrackID_identity sampleURLParse "2b7VhCSKWZAFDrDPKTJ1z2" (by decide),
    parseTrackID_identity sampleURLParse "" (by decide)⟩

/-- Witness for C9: a display name with a space is not an identifier. -/
theorem isBase62_iff_witness :
    ' ' ∈ "Bohemian Rhapsody".data ∧ isBase62 "Bohemian Rhapsody" = false :=
  ⟨by decide, (isBase62_iff "Bohemian Rhapsody").2.2 (by decide)⟩

/-- C3, as stated, fails: on the URL input `https://open.spotify.com/track//x`, whose parsed
path `/track//x` splits into `track`, the empty segment and `x`, `parseTrackID` succeeds with
the empty identifier. -/
theorem parseTrackID_empty_identifier :
    stringsContains "https://open.spotify.com/track//x" "spotify.com" = true ∧
    sampleURLParse "https://open.spotify.com/track//x" = .ok ⟨"/track//x"⟩ ∧
    stringsSplit (stringsTrim "/track//x" "/") '/' = ["track", "", "x"] ∧
    parseTrackID sampleURLParse "https://open.spotify.com/track//x" = .ok "" := by
  decide

/-- C3, amended: for an input containing `spotify.com` whose URL parse succeeds, split the
path, stripped of leading and trailing `/`, on `/`.  If the segments do not start with `track`
followed by a second segment, `parseTrackID` fails with the unrecognized-shape error;
otherwise it returns the second segment, without checking that it is non-empty. -/
theorem parseTrackID_shape (urlParse : URLParser) (input : String) (u : URL)
    (hc : stringsContains input "spotify.com" = true)
    (hp : urlParse input = .ok u) :
    ((¬ ∃ p1 rest, stringsSplit (stringsTrim u.Path "/") '/' = "track" :: p1 :: rest) →
      parseTrackID urlParse input = .error "URL does not contain a valid track path") ∧
    (∀ p1 rest, stringsSplit (stringsTrim u.Path "/") '/' = "track" :: p1 :: rest →
      parseTrackID urlParse input = .ok p1) := by
  constructor
  · intro hno
    simp only [parseTrackID, hc, if_true, hp]
    split
    · rename_i p0 p1 rest heq
      by_cases h0 : p0 = "track"
      · exact absurd ⟨p1, rest, h0 ▸ heq⟩ hno
      · simp [h0]
    · rfl
  · intro p1 rest heq
    simp [parseTrackID, hc, hp, heq]

/-- Witness for C3: an album link is rejected, a track link yields its
second segment. -/
theorem parseTrackID_shape_witness :
    parseTrackID sampleURLParse "https://open.spotify.com/album/4aawyAB9vmqN3uQ7FjRGTy" =
      .error "URL does not contain a valid track path" ∧
    parseTrackID sampleURLParse "https://open.spotify.com/track/2b7VhCSKWZAFDrDPKTJ1z2/" =
      .ok "2b7VhCSKWZAFDrDPKTJ1z2" :=
  ⟨(parseTrackID_shape sampleURLParse "https://open.spotify.com/album/4aawyAB9vmqN3uQ7FjRGTy"
      ⟨"/album/4aawyAB9vmqN3uQ7FjRGTy"⟩ (by decide) (by decide)).1
      (by
        rintro ⟨p1, rest, h⟩
        have e : stringsSplit (stringsTrim "/album/4aawyAB9vmqN3uQ7FjRGTy" "/") '/' =
            ["album", "4aawyAB9vmqN3uQ7FjRGTy"] := by decide
        rw [e] at h
        exact absurd (List.cons.inj h).1 (by decide)),
   (parseTrackID_shape sampleURLParse "https://open.spotify.com/track/2b7VhCSKWZAFDrDPKTJ1z2/"
      ⟨"/track/2b7VhCSKWZAFDrDPKTJ1z2/"⟩ (by decide) (by decide)).2
      "2b7VhCSKWZAFDrDPKTJ1z2" [] (by decide)⟩

/-- C8, as stated, fails: an album link contains `spotify.com`, yet `isIDOrURL` is false for
it, because `parseTrackID` rejects it. -/
theorem isIDOrURL_album_link :
    stringsContains "https://open.spotify.com/album/4aawyAB9vmqN3uQ7FjRGTy" "spotify.com" = true ∧
    isIDOrURL sampleURLParse "https://open.spotify.com/album/4aawyAB9vmqN3uQ7FjRGTy" = false ∧
    isIDOrURL sampleURLParse "https://open.spotify.com/album/4aawyAB9vmqN3uQ7FjRGTy" ≠
      (stringsContains "https://open.spotify.com/album/4aawyAB9vmqN3uQ7FjRGTy" "spotify.com" ||
        isBase62 "https://open.spotify.com/album/4aawyAB9vmqN3uQ7FjRGTy") := by
  decide

/-- C8, amended: `isIDOrURL q` is true exactly when `q` is a non-empty string of ASCII digits
and letters, or `q` contains `spotify.com` and `parseTrackID q` returns no error; a query
containing `spotify.com` that `parseTrackID` rejects is classified as a name. -/
theorem isIDOrURL_eq (urlParse : URLParser) (q : String) :
    isIDOrURL urlParse q =
      (isBase62 q ||
        (stringsContains q "spotify.com" && (parseTrackID urlParse q).toBool)) := by
  unfold isIDOrURL
  cases hb : isBase62 q
  · cases hc : stringsContains q "spotify.com"
    · simp
    · cases hp : parseTrackID urlParse q <;> simp [Except.toBool]
  · have hc := isBase62_not_contains q hb
    simp [parseTrackID, hc]

/-! ## Playlist resolver -/

theorem matchPlaylistLoop_none (name : String) (playlists : List SimplePlaylist)
    (h : ∀ p ∈ playlists, p.Name ≠ name) :
    matchPlaylistLoop name playlists = SimplePlaylist.zero := by
  induction playlists with
  | nil => rfl
  | cons p ps ih =>
    have hp : ¬ name = p.Name := fun e => h p (by simp) e.symm
    simp only [matchPlaylistLoop, hp, if_false]
    exact ih (fun q hq => h q (by simp [hq]))

theorem matchPlaylistLoop_first (name : String) (playlists : List SimplePlaylist)
    (p : SimplePlaylist) (h : playlists.find? (fun q => decide (q.Name = name)) = some p) :
    matchPlaylistLoop name playlists = p := by
  induction playlists with
  | nil => simp at h
  | cons q qs ih =>
    by_cases hq : name = q.Name
    · simp only [List.find?_cons, hq, decide_True] at h
      simp only [matchPlaylistLoop, hq, if_true]
      exact Option.some.inj h
    · have hq' : ¬ q.Name = name := fun e => hq e.symm
      simp only [List.find?_cons, hq', decide_False] at h
      simp only [matchPlaylistLoop, hq, if_false]
      exact ih h

/-- The playlist resolver on a listing that answers `playlists`: with no playlist of the
queried name it fails with "playlist not found"; otherwise it returns the first playlist of
that name, provided that playlist is not the zero-valued record. -/
theorem getPlaylistByName_spec (client : Client) (name : String)
    (playlists : List SimplePlaylist) (hc : client.CurrentUsersPlaylists = .ok playlists) :
    ((∀ p ∈ playlists, p.Name ≠ name) →
      getPlaylistByName client name = .error ("playlist not found: " ++ name)) ∧
    (∀ p, playlists.find? (fun q => decide (q.Name = name)) = some p →
      p ≠ SimplePlaylist.zero → getPlaylistByName client name = .ok p) := by
  constructor
  · intro h
    simp [getPlaylistByName, hc, matchPlaylistLoop_none name playlists h]
  · intro p hp hz
    simp [getPlaylistByName, hc, matchPlaylistLoop_first name playlists p hp, hz]

/-- C4, at the failing input: the collection holds exactly one playlist named `""`, the
zero-valued record, and the resolver queried for `""` answers "playlist not found" instead
of returning it. -/
theorem getPlaylistByName_zero_valued :
    [SimplePlaylist.zero].find? (fun q => decide (q.Name = "")) = some SimplePlaylist.zero ∧
    getPlaylistByName (mkClient [SimplePlaylist.zero] [] ⟨none⟩) "" =
      .error "playlist not found: " := by
  decide

/-! ## Adding a track by name -/

/-- C5, as stated, fails: among thirteen results whose maximum popularity 9 is reached at
positions 3, 6 and 9, the first of the tied maximum is `t3`, yet the handler adds `t6`.
With more than 12 elements `sort.Slice` partitions: `choosePivot_func` picks position 6 (the
median of positions 3, 6 and 9), `partition_func` swaps the pivot to the front, where it
stays since no track is more popular, and the remaining twelve are sorted behind it. -/
theorem addTrackByNameToPlaylist_thirteen :
    (firstMostPopular thirteenResults).map (fun t => t.SimpleTrack.ID) = some "t3" ∧
    choosePivot_func (fun x y : FullTrack => decide (x.Popularity > y.Popularity))
      thirteenResults 0 13 = (6, .increasingHint) ∧
    (partition_func (fun x y : FullTrack => decide (x.Popularity > y.Popularity))
      thirteenResults 0 13 6).2 = (0, true) ∧
    (referenceSortSlice (fun x y : FullTrack => decide (x.Popularity > y.Popularity))
      thirteenResults).map (fun t => t.SimpleTrack.ID) =
      ["t6", "t3", "t9", "t1", "t2", "t4", "t5", "t0", "t7", "t8", "t10", "t11", "t12"] ∧
    (addTrackByNameToPlaylist referenceSortSlice
        (mkClient [mkPlaylist "p1" "Rock"] [] ⟨some ⟨thirteenResults⟩⟩) "song" "Rock").calls =
      [.CurrentUser, .CurrentUsersPlaylists, .Search "song",
        .AddTracksToPlaylist "p1" ["t6"]] := by
  decide

theorem head_of_sortedBy (tracks sorted : List FullTrack) (hne : tracks ≠ [])
    (hsort : SortedBy (fun x y : FullTrack => decide (x.Popularity > y.Popularity))
      tracks sorted) :
    ∃ t0 ts, sorted = t0 :: ts ∧ t0 ∈ tracks ∧ ∀ u ∈ tracks, u.Popularity ≤ t0.Popularity := by
  obtain ⟨hperm, hpair⟩ := hsort
  cases sorted with
  | nil => exact absurd (List.Perm.eq_nil (List.Perm.symm hperm)) hne
  | cons t0 ts =>
    refine ⟨t0, ts, rfl, hperm.subset (by simp), ?_⟩
    intro u hu
    have hu' : u ∈ t0 :: ts := hperm.symm.subset hu
    rcases List.mem_cons.mp hu' with rfl | hmem
    · exact le_refl _
    · have := (List.pairwise_cons.mp hpair).1 u hmem
      simpa using this

theorem firstMostPopular_of_unique (tracks : List FullTrack) (t : FullTrack)
    (hmem : t ∈ tracks) (hmax : ∀ u ∈ tracks, u.Popularity ≤ t.Popularity)
    (huniq : ∀ u ∈ tracks, u.Popularity = t.Popularity → u = t) :
    firstMostPopular tracks = some t := by
  unfold firstMostPopular
  cases hf : tracks.find?
      (fun t => tracks.all (fun u => decide (u.Popularity ≤ t.Popularity))) with
  | none =>
    have := List.find?_eq_none.mp hf t hmem
    simp only [List.all_eq_true, decide_eq_true_eq] at this
    exact absurd hmax this
  | some m =>
    have hm : m ∈ tracks := List.mem_of_find?_eq_some hf
    have hp := List.find?_some hf
    simp only [List.all_eq_true, decide_eq_true_eq] at hp
    have heq : m.Popularity = t.Popularity := le_antisymm (hmax m hm) (hp t hmem)
    rw [huniq m hm heq]

/-- C5, amended: for every non-empty search result list, of any length, and every behaviour of
`sort.Slice` within its contract, the track the handler selects and adds is a track of the
list with the maximum popularity; when a single track reaches the maximum it is that track,
the first of those with the maximum popularity. -/
theorem addTrackByNameToPlaylist_selects (sortSlice : SliceSorter) (client : Client)
    (query playlistName : String) (user : User) (pl : SimplePlaylist) (page : FullTrackPage)
    (hu : client.CurrentUser = .ok user)
    (hp : getPlaylistByName client playlistName = .ok pl)
    (hs : client.Search query = .ok ⟨some page⟩)
    (hne : page.Tracks ≠ [])
    (hsort : SortedBy (fun x y : FullTrack => decide (x.Popularity > y.Popularity)) page.Tracks
      (sortSlice (fun x y => decide (x.Popularity > y.Popularity)) page.Tracks)) :
    ∃ t, t ∈ page.Tracks ∧ (∀ u ∈ page.Tracks, u.Popularity ≤ t.Popularity) ∧
      (addTrackByNameToPlaylist sortSlice client query playlistName).calls =
        [.CurrentUser, .CurrentUsersPlaylists, .Search query,
          .AddTracksToPlaylist pl.ID [t.SimpleTrack.ID]] ∧
      ((∀ u ∈ page.Tracks, u.Popularity = t.Popularity → u = t) →
        firstMostPopular page.Tracks = some t) := by
  obtain ⟨t0, ts, hsorted, hmem, hmax⟩ := head_of_sortedBy page.Tracks _ hne hsort
  refine ⟨t0, hmem, hmax, ?_, firstMostPopular_of_unique page.Tracks t0 hmem hmax⟩
  simp only [addTrackByNameToPlaylist, hu, hp, hs, hsorted]
  cases client.AddTracksToPlaylist pl.ID [t0.SimpleTrack.ID] <;> rfl

/-- Witness for C5: the results `(a, 5)`, `(b, 9)`, `(c, 9)` sorted by the reference
instance, which puts `b` first. -/
theorem addTrackByNameToPlaylist_selects_witness :
    (∃ t, t ∈ [mkTrack "a" "A" 5, mkTrack "b" "B" 9, mkTrack "c" "C" 9] ∧
      (∀ u ∈ [mkTrack "a" "A" 5, mkTrack "b" "B" 9, mkTrack "c" "C" 9],
        u.Popularity ≤ t.Popularity) ∧
      (addTrackByNameToPlaylist referenceSortSlice
        (mkClient [mkPlaylist "p1" "Rock"] []
          ⟨some ⟨[mkTrack "a" "A" 5, mkTrack "b" "B" 9, mkTrack "c" "C" 9]⟩⟩)
        "song" "Rock").calls =
        [.CurrentUser, .CurrentUsersPlaylists, .Search "song",
          .AddTracksToPlaylist (mkPlaylist "p1" "Rock").ID [t.SimpleTrack.ID]] ∧
      ((∀ u ∈ [mkTrack "a" "A" 5, mkTrack "b" "B" 9, mkTrack "c" "C" 9],
          u.Popularity = t.Popularity → u = t) →
        firstMostPopular [mkTrack "a" "A" 5, mkTrack "b" "B" 9, mkTrack "c" "C" 9] = some t)) ∧
    (addTrackByNameToPlaylist referenceSortSlice
        (mkClient [mkPlaylist "p1" "Rock"] []
          ⟨some ⟨[mkTrack "a" "A" 5, mkTrack "b" "B" 9, mkTrack "c" "C" 9]⟩⟩)
        "song" "Rock").calls =
      [.CurrentUser, .CurrentUsersPlaylists, .Search "song",
        .AddTracksToPlaylist "p1" ["b"]] :=
  ⟨addTrackByNameToPlaylist_selects referenceSortSlice
    (mkClient [mkPlaylist "p1" "Rock"] []
      ⟨some ⟨[mkTrack "a" "A" 5, mkTrack "b" "B" 9, mkTrack "c" "C" 9]⟩⟩)
    "song" "Rock" ⟨"Ann", "ann"⟩ (mkPlaylist "p1" "Rock")
    ⟨[mkTrack "a" "A" 5, mkTrack "b" "B" 9, mkTrack "c" "C" 9]⟩
    rfl (by decide) rfl (by decide) ⟨by decide, by decide⟩,
   by decide⟩

/-- C6, at the failing inputs: when the search answers a page with no track the handler
panics on `tracks[0]`, and when it answers no page the handler prints "not found" and
returns a `nil` error; in neither case is an "add tracks" call issued. -/
theorem addTrackByNameToPlaylist_no_results :
    (addTrackByNameToPlaylist referenceSortSlice
        (mkClient [mkPlaylist "p1" "Rock"] [] ⟨some ⟨[]⟩⟩) "song" "Rock") =
      ⟨[.CurrentUser, .CurrentUsersPlaylists, .Search "song"],
        ["User:  Ann\n", "Playlist:  Rock\n"],
        .panicked "runtime error: index out of range [0] with length 0"⟩ ∧
    (addTrackByNameToPlaylist referenceSortSlice
        (mkClient [mkPlaylist "p1" "Rock"] [] ⟨none⟩) "song" "Rock") =
      ⟨[.CurrentUser, .CurrentUsersPlaylists, .Search "song"],
        ["User:  Ann\n", "Playlist:  Rock\n", "Track song not found.\n"],
        .returned none⟩ := by
  decide

/-! ## Removing a track -/

theorem matchTrackLoop_none (isID : Bool) (parsed name : String) (ptracks : List PlaylistTrack)
    (h : ∀ t ∈ ptracks,
      ¬ (if isID then t.Track.SimpleTrack.ID = parsed else name = t.Track.SimpleTrack.Name)) :
    matchTrackLoop isID parsed name ptracks = SimpleTrack.zero := by
  induction ptracks with
  | nil => rfl
  | cons t ts ih =>
    have ht := h t (by simp)
    have hts := ih (fun u hu => h u (by simp [hu]))
    cases isID <;> simp_all [matchTrackLoop]

theorem matchTrackLoop_first (isID : Bool) (parsed name : String) (ptracks : List PlaylistTrack)
    (t : PlaylistTrack)
    (h : ptracks.find? (fun u =>
      if isID then decide (u.Track.SimpleTrack.ID = parsed)
      else decide (name = u.Track.SimpleTrack.Name)) = some t) :
    matchTrackLoop isID parsed name ptracks = t.Track.SimpleTrack := by
  induction ptracks with
  | nil => simp at h
  | cons u us ih =>
    cases isID
    · by_cases hu : name = u.Track.SimpleTrack.Name
      · simp only [List.find?_cons, hu, decide_True, Bool.false_eq_true, if_false] at h
        simp [matchTrackLoop, hu, ← Option.some.inj h]
      · simp only [List.find?_cons, hu, decide_False, Bool.false_eq_true, if_false] at h
        simp only [matchTrackLoop, hu, if_false, Bool.false_eq_true]
        exact ih h
    · by_cases hu : u.Track.SimpleTrack.ID = parsed
      · simp only [List.find?_cons, hu, decide_True, if_true] at h
        simp [matchTrackLoop, hu, ← Option.some.inj h]
      · simp only [List.find?_cons, hu, decide_False, if_true] at h
        simp only [matchTrackLoop, hu, if_false, if_true]
        exact ih h

/-- The track-removal matcher: a query classified as identifier/URL is matched against the
track identifiers with the parsed identifier, any other against the track names; with no
matching entry the matcher fails with "not found in playlist", and it returns the first
matching entry provided that entry's track is not the zero-valued record.  A purely
alphanumeric query is classified as an identifier. -/
theorem rmTrackMatcher_spec (urlParse : URLParser) (ptracks : List PlaylistTrack)
    (query playlistName : String) :
    (isBase62 query = true → isIDOrURL urlParse query = true) ∧
    (∀ id, isIDOrURL urlParse query = true → parseTrackID urlParse query = .ok id →
      ((∀ t ∈ ptracks, t.Track.SimpleTrack.ID ≠ id) →
        rmTrackMatcher urlParse ptracks query playlistName =
          .error ("track " ++ query ++ " not found in playlist " ++ playlistName)) ∧
      (∀ t, ptracks.find? (fun u => decide (u.Track.SimpleTrack.ID = id)) = some t →
        t.Track.SimpleTrack ≠ SimpleTrack.zero →
        rmTrackMatcher urlParse ptracks query playlistName = .ok t.Track.SimpleTrack)) ∧
    (isIDOrURL urlParse query = false →
      ((∀ t ∈ ptracks, t.Track.SimpleTrack.Name ≠ query) →
        rmTrackMatcher urlParse ptracks query playlistName =
          .error ("track " ++ query ++ " not found in playlist " ++ playlistName)) ∧
      (∀ t, ptracks.find? (fun u => decide (query = u.Track.SimpleTrack.Name)) = some t →
        t.Track.SimpleTrack ≠ SimpleTrack.zero →
        rmTrackMatcher urlParse ptracks query playlistName = .ok t.Track.SimpleTrack)) := by
  refine ⟨?_, ?_, ?_⟩
  · intro hb
    simp [isIDOrURL, parseTrackID, isBase62_not_contains query hb, hb]
  · intro id hid hparse
    constructor
    · intro hno
      have := matchTrackLoop_none true id query ptracks (by simpa using hno)
      simp [rmTrackMatcher, hid, hparse, this]
    · intro t ht hz
      have := matchTrackLoop_first true id query ptracks t (by simpa using ht)
      simp [rmTrackMatcher, hid, hparse, this, hz]
  · intro hid
    constructor
    · intro hno
      have := matchTrackLoop_none false
        (match parseTrackID urlParse query with
          | .ok id => id
          | .error _ => "") query ptracks
        (by
          intro t ht
          simpa using fun e => hno t ht e.symm)
      simp only [rmTrackMatcher, hid, this]
      simp
    · intro t ht hz
      have := matchTrackLoop_first false
        (match parseTrackID urlParse query with
          | .ok id => id
          | .error _ => "") query ptracks t (by simpa using ht)
      simp only [rmTrackMatcher, hid, this]
      simp [hz]

/-- C7, at the failing input: the query `""` is classified as a name, the listing holds an
entry whose track is the zero-valued record, so of name `""`, and the matcher answers
"not found in playlist" instead of returning that entry. -/
theorem rmTrackMatcher_zero_valued :
    isIDOrURL sampleURLParse "" = false ∧
    [(⟨⟨SimpleTrack.zero, ⟨""⟩, 0⟩⟩ : PlaylistTrack)].find?
        (fun u => decide ("" = u.Track.SimpleTrack.Name)) =
      some ⟨⟨SimpleTrack.zero, ⟨""⟩, 0⟩⟩ ∧
    rmTrackMatcher sampleURLParse [⟨⟨SimpleTrack.zero, ⟨""⟩, 0⟩⟩] "" "Rock" =
      .error "track  not found in playlist Rock" := by
  decide

/-! ## Clearing a playlist -/

theorem foldl_collect_ids (tracks : List PlaylistTrack) (ids : List String) :
    tracks.foldl (fun ids t => ids ++ [t.Track.SimpleTrack.ID]) ids =
      ids ++ tracks.map (fun t => t.Track.SimpleTrack.ID) := by
  induction tracks generalizing ids with
  | nil => simp
  | cons t ts ih => simp [ih]

/-- C10: when the user lookup, the playlist resolution and the track listing succeed,
`clearPlaylist` on an empty listing issues no "remove tracks" call, reports that the playlist
is already empty and returns success; on a listing of `N >= 1` entries it issues exactly one
"remove tracks" call, whose argument is the list of the `N` track identifiers in listing
order, duplicates included. -/
theorem clearPlaylist_calls (client : Client) (playlistName : String) (user : User)
    (pl : SimplePlaylist) (tracks : List PlaylistTrack)
    (hu : client.CurrentUser = .ok user)
    (hp : getPlaylistByName client playlistName = .ok pl)
    (ht : client.GetPlaylistTracks pl.ID = .ok tracks) :
    (tracks = [] →
      (clearPlaylist client playlistName).calls.filter Call.isRemoveTracks = [] ∧
      (clearPlaylist client playlistName).outcome = .returned none ∧
      "Playlist is already empty.\n" ∈ (clearPlaylist client playlistName).output) ∧
    (tracks ≠ [] →
      (clearPlaylist client playlistName).calls.filter Call.isRemoveTracks =
        [.RemoveTracksFromPlaylist pl.ID (tracks.map (fun t => t.Track.SimpleTrack.ID))] ∧
      (tracks.map (fun t => t.Track.SimpleTrack.ID)).length = tracks.length) := by
  constructor
  · intro he
    subst he
    simp [clearPlaylist, hu, hp, ht, Call.isRemoveTracks]
  · intro hne
    have hlen : tracks.length ≠ 0 := fun h => hne (List.length_eq_zero.mp h)
    refine ⟨?_, by simp⟩
    simp only [clearPlaylist, hu, hp, ht, hlen, if_false, foldl_collect_ids, List.nil_append]
    cases client.RemoveTracksFromPlaylist pl.ID (tracks.map fun t => t.Track.SimpleTrack.ID) <;>
      simp [Call.isRemoveTracks, List.filter]

/-- Witness for C10: a playlist holding the same track twice. -/
theorem clearPlaylist_calls_witness :
    (clearPlaylist
        (mkClient [mkPlaylist "p1" "Rock"] [⟨mkTrack "a" "A" 5⟩, ⟨mkTrack "a" "A" 5⟩] ⟨none⟩)
        "Rock").calls.filter Call.isRemoveTracks =
      [.RemoveTracksFromPlaylist "p1" ["a", "a"]] :=
  ((clearPlaylist_calls
    (mkClient [mkPlaylist "p1" "Rock"] [⟨mkTrack "a" "A" 5⟩, ⟨mkTrack "a" "A" 5⟩] ⟨none⟩)
    "Rock" ⟨"Ann", "ann"⟩ (mkPlaylist "p1" "Rock") [⟨mkTrack "a" "A" 5⟩, ⟨mkTrack "a" "A" 5⟩]
    rfl (by decide) rfl).2 (by decide)).1

end Spotifycli
